import Mathlib

/-!
Verification development for the quick-tabletop-engine synchronization core.

The Go source is shallowly embedded:
* Go `map[string]T` values are modelled as association lists
  (`List (String × T)`); the operations mirror Go map semantics
  (insert-or-overwrite, delete, lookup).  Live states keep their keys
  distinct, which the operations preserve.
* Go `float64` coordinate values are modelled as exact rationals (`Rat`):
  the embedded code only stores, copies and serializes them, it never
  performs floating-point arithmetic on them.
* JSON documents are modelled as a `Jval` tree; `encoding/json` marshalling
  and unmarshalling of the concrete structs of the `game` package are
  embedded as total Lean functions over `Jval` (unknown object keys are
  ignored, missing fields keep the Go zero value, `null` leaves a field at
  its zero value, a type mismatch is an unmarshal error, a later duplicate
  key overwrites an earlier one).  Go's case-insensitive fallback for field
  names and its sorting of map keys in output are not modelled: no claim
  distinguishes them, and object-key order is irrelevant to unmarshalling.
* `uuid.NewString()` results are passed in as explicit arguments
  (`genId` / `newId`): the embedding treats the generator as an oracle and
  states freshness of the generated ids as hypotheses where a claim
  relies on it.
-/

set_option autoImplicit false

namespace QTE

/-! ### Association-list model of Go string-keyed maps -/

/-- Lookup in an association list, mirroring Go map indexing `m[k]`. -/
def alistLookup {κ α : Type} [DecidableEq κ] (m : List (κ × α)) (k : κ) :
    Option α :=
  match m with
  | [] => none
  | (k', v) :: rest => if k' = k then some v else alistLookup rest k

/-- Insert-or-overwrite, mirroring Go map assignment `m[k] = v`. -/
def alistInsert {κ α : Type} [DecidableEq κ] (m : List (κ × α)) (k : κ)
    (v : α) : List (κ × α) :=
  match m with
  | [] => [(k, v)]
  | (k', v') :: rest =>
      if k' = k then (k, v) :: rest else (k', v') :: alistInsert rest k v

/-- Removal, mirroring Go `delete(m, k)`. -/
def alistErase {κ α : Type} [DecidableEq κ] (m : List (κ × α)) (k : κ) :
    List (κ × α) :=
  match m with
  | [] => []
  | (k', v) :: rest =>
      if k' = k then alistErase rest k else (k', v) :: alistErase rest k

/-- Key list of an association list. -/
def alistKeys {κ α : Type} (m : List (κ × α)) : List κ :=
  m.map Prod.fst

/-! ### Scene State (package `game`, current iteration) -/

/-- Go struct `game.TokenData`. -/
structure TokenData where
  name : String
  imgPath : String
  x : Rat
  y : Rat
  tokenSize : Rat
deriving DecidableEq, Repr

/-- Go struct `game.AreaTemplate`. -/
structure AreaTemplate where
  shape : String
  x : Rat
  y : Rat
  size : Rat
  color : String
  opacity : Rat
deriving DecidableEq, Repr

/-- Go struct `game.State`: the Scene State of one session. -/
structure State where
  displayedTokens : List (String × TokenData)
  backgroundImgPath : String
  showGrid : Bool
  gridUnit : Rat
  areaTemplates : List (String × AreaTemplate)
deriving DecidableEq, Repr

/-- Go `game.NewState()`: the default Scene State. -/
def NewState : State :=
  { displayedTokens := []
    backgroundImgPath := "/assets/default/maps/tavern.jpg"
    showGrid := true
    gridUnit := 96
    areaTemplates := [] }

/-- Go `(*State).AddToken`. -/
def State.AddToken (s : State) (id : String) (token : TokenData) : State :=
  { s with displayedTokens := alistInsert s.displayedTokens id token }

/-- Go `(*State).MoveToken`: updates position iff the id exists. -/
def State.MoveToken (s : State) (id : String) (x y : Rat) : State :=
  match alistLookup s.displayedTokens id with
  | some token =>
      { s with displayedTokens :=
          alistInsert s.displayedTokens id { token with x := x, y := y } }
  | none => s

/-- Go `(*State).DeleteToken`. -/
def State.DeleteToken (s : State) (id : String) : State :=
  { s with displayedTokens := alistErase s.displayedTokens id }

/-- Go `(*State).ClearTokens`. -/
def State.ClearTokens (s : State) : State :=
  { s with displayedTokens := [] }

/-- Go `(*State).ChangeBackgroundImg`. -/
def State.ChangeBackgroundImg (s : State) (path : String) : State :=
  { s with backgroundImgPath := path }

/-- Go `(*State).ToggleGrid`. -/
def State.ToggleGrid (s : State) : State :=
  { s with showGrid := !s.showGrid }

/-- Go `(*State).AddAreaTemplate`. -/
def State.AddAreaTemplate (s : State) (id : String) (t : AreaTemplate) : State :=
  { s with areaTemplates := alistInsert s.areaTemplates id t }

/-- Go `(*State).MoveAreaTemplate`: updates position iff the id exists. -/
def State.MoveAreaTemplate (s : State) (id : String) (x y : Rat) : State :=
  match alistLookup s.areaTemplates id with
  | some t =>
      { s with areaTemplates :=
          alistInsert s.areaTemplates id { t with x := x, y := y } }
  | none => s

/-- Go `(*State).DeleteAreaTemplate`. -/
def State.DeleteAreaTemplate (s : State) (id : String) : State :=
  { s with areaTemplates := alistErase s.areaTemplates id }

/-- Go `(*State).ClearAreaTemplates`. -/
def State.ClearAreaTemplates (s : State) : State :=
  { s with areaTemplates := [] }

/-! ### JSON model and `encoding/json` for the payload structs -/

/-- JSON value tree; numbers are kept exact (see the header comment). -/
inductive Jval where
  | jnull : Jval
  | jbool (b : Bool) : Jval
  | jnum (q : Rat) : Jval
  | jstr (s : String) : Jval
  | jarr (elems : List Jval) : Jval
  | jobj (fields : List (String × Jval)) : Jval
deriving Repr

/-- Last binding of a key among the fields of a JSON object, as
`encoding/json` keeps the last duplicate key. -/
def jsonField (fields : List (String × Jval)) (key : String) : Option Jval :=
  match fields with
  | [] => none
  | (k, v) :: rest =>
      match jsonField rest key with
      | some w => some w
      | none => if k = key then some v else none

/-- Unmarshal a `string` struct field: absent or `null` keeps the zero value
`""`; a JSON string sets it; anything else is an unmarshal error. -/
def decodeStringField (fields : List (String × Jval)) (key : String) :
    Option String :=
  match jsonField fields key with
  | none => some ""
  | some .jnull => some ""
  | some (.jstr s) => some s
  | some _ => none

/-- Unmarshal a `float64` struct field: absent or `null` keeps the zero value
`0`; a JSON number sets it; anything else is an unmarshal error. -/
def decodeNumField (fields : List (String × Jval)) (key : String) :
    Option Rat :=
  match jsonField fields key with
  | none => some 0
  | some .jnull => some 0
  | some (.jnum q) => some q
  | some _ => none

/-- Unmarshal a `bool` struct field. -/
def decodeBoolField (fields : List (String × Jval)) (key : String) :
    Option Bool :=
  match jsonField fields key with
  | none => some false
  | some .jnull => some false
  | some (.jbool b) => some b
  | some _ => none

/-- Go zero value of `game.TokenData`. -/
def zeroTokenData : TokenData := ⟨"", "", 0, 0, 0⟩

/-- Go zero value of `game.AreaTemplate`. -/
def zeroAreaTemplate : AreaTemplate := ⟨"", 0, 0, 0, "", 0⟩

/-- Unmarshal the fields of a JSON object into a `game.TokenData`. -/
def decodeTokenDataObj (fields : List (String × Jval)) : Option TokenData := do
  let name ← decodeStringField fields "name"
  let imgPath ← decodeStringField fields "imgPath"
  let x ← decodeNumField fields "x"
  let y ← decodeNumField fields "y"
  let tokenSize ← decodeNumField fields "tokenSize"
  pure ⟨name, imgPath, x, y, tokenSize⟩

/-- Unmarshal a JSON value into a `game.TokenData` (`null` keeps the zero
struct, an object is decoded field-wise, anything else errors). -/
def decodeTokenData : Jval → Option TokenData
  | .jnull => some zeroTokenData
  | .jobj fields => decodeTokenDataObj fields
  | _ => none

/-- Unmarshal the fields of a JSON object into a `game.AreaTemplate`. -/
def decodeAreaTemplateObj (fields : List (String × Jval)) :
    Option AreaTemplate := do
  let shape ← decodeStringField fields "shape"
  let x ← decodeNumField fields "x"
  let y ← decodeNumField fields "y"
  let size ← decodeNumField fields "size"
  let color ← decodeStringField fields "color"
  let opacity ← decodeNumField fields "opacity"
  pure ⟨shape, x, y, size, color, opacity⟩

/-- Unmarshal a JSON value into a `game.AreaTemplate`. -/
def decodeAreaTemplate : Jval → Option AreaTemplate
  | .jnull => some zeroAreaTemplate
  | .jobj fields => decodeAreaTemplateObj fields
  | _ => none

/-! ### Command payload structs (package `game`) and their unmarshalling

A payload is `Option Jval`: `none` models a `nil` `json.RawMessage`
(the `"payload"` key absent from the envelope), on which `json.Unmarshal`
errors; `some .jnull` models an explicit JSON `null`, which leaves the
target struct at its zero value without error. -/

/-- Go struct `game.AddTokenPayload`. -/
structure AddTokenPayload where
  id : String
  token : TokenData
deriving DecidableEq, Repr

/-- Go struct `game.MoveTokenPayload`. -/
structure MoveTokenPayload where
  id : String
  x : Rat
  y : Rat
deriving DecidableEq, Repr

/-- Go struct `game.DeleteTokenPayload`. -/
structure DeleteTokenPayload where
  id : String
deriving DecidableEq, Repr

/-- Go struct `game.ChangeBackgroundPayload`. -/
structure ChangeBackgroundPayload where
  imgPath : String
deriving DecidableEq, Repr

/-- Go struct `game.AddAreaTemplatePayload`. -/
structure AddAreaTemplatePayload where
  id : String
  template : AreaTemplate
deriving DecidableEq, Repr

/-- Go struct `game.MoveAreaTemplatePayload`. -/
structure MoveAreaTemplatePayload where
  id : String
  x : Rat
  y : Rat
deriving DecidableEq, Repr

/-- Go struct `game.DeleteAreaTemplatePayload`. -/
structure DeleteAreaTemplatePayload where
  id : String
deriving DecidableEq, Repr

/-- Unmarshal an `AddTokenPayload` from a raw payload. -/
def decodeAddTokenPayload : Option Jval → Option AddTokenPayload
  | none => none
  | some .jnull => some ⟨"", zeroTokenData⟩
  | some (.jobj fields) => do
      let id ← decodeStringField fields "id"
      let token ←
        match jsonField fields "token" with
        | none => some zeroTokenData
        | some v => decodeTokenData v
      pure ⟨id, token⟩
  | some _ => none

/-- Unmarshal a `MoveTokenPayload` from a raw payload. -/
def decodeMoveTokenPayload : Option Jval → Option MoveTokenPayload
  | none => none
  | some .jnull => some ⟨"", 0, 0⟩
  | some (.jobj fields) => do
      let id ← decodeStringField fields "id"
      let x ← decodeNumField fields "x"
      let y ← decodeNumField fields "y"
      pure ⟨id, x, y⟩
  | some _ => none

/-- Unmarshal a `DeleteTokenPayload` from a raw payload. -/
def decodeDeleteTokenPayload : Option Jval → Option DeleteTokenPayload
  | none => none
  | some .jnull => some ⟨""⟩
  | some (.jobj fields) => do
      let id ← decodeStringField fields "id"
      pure ⟨id⟩
  | some _ => none

/-- Unmarshal a `ChangeBackgroundPayload` from a raw payload. -/
def decodeChangeBackgroundPayload : Option Jval → Option ChangeBackgroundPayload
  | none => none
  | some .jnull => some ⟨""⟩
  | some (.jobj fields) => do
      let imgPath ← decodeStringField fields "imgPath"
      pure ⟨imgPath⟩
  | some _ => none

/-- Unmarshal an `AddAreaTemplatePayload` from a raw payload. -/
def decodeAddAreaTemplatePayload : Option Jval → Option AddAreaTemplatePayload
  | none => none
  | some .jnull => some ⟨"", zeroAreaTemplate⟩
  | some (.jobj fields) => do
      let id ← decodeStringField fields "id"
      let template ←
        match jsonField fields "template" with
        | none => some zeroAreaTemplate
        | some v => decodeAreaTemplate v
      pure ⟨id, template⟩
  | some _ => none

/-- Unmarshal a `MoveAreaTemplatePayload` from a raw payload. -/
def decodeMoveAreaTemplatePayload : Option Jval → Option MoveAreaTemplatePayload
  | none => none
  | some .jnull => some ⟨"", 0, 0⟩
  | some (.jobj fields) => do
      let id ← decodeStringField fields "id"
      let x ← decodeNumField fields "x"
      let y ← decodeNumField fields "y"
      pure ⟨id, x, y⟩
  | some _ => none

/-- Unmarshal a `DeleteAreaTemplatePayload` from a raw payload. -/
def decodeDeleteAreaTemplatePayload : Option Jval → Option DeleteAreaTemplatePayload
  | none => none
  | some .jnull => some ⟨""⟩
  | some (.jobj fields) => do
      let id ← decodeStringField fields "id"
      pure ⟨id⟩
  | some _ => none

/-! ### Command envelope and `processCommand` (package `session`) -/

/-- Go struct `session.ClientMessage`: the command envelope.  `payload` is a
raw JSON fragment (`none` when the key was absent, leaving the
`json.RawMessage` nil). -/
structure ClientMessage where
  type : String
  payload : Option Jval
deriving Repr

/-- Unmarshal a received text message into a `session.ClientMessage`
(`json.Unmarshal(msg, &clientMsg)` in `HandleWS`): an object yields the
envelope, `null` yields the zero envelope, anything else is an error. -/
def parseClientMessage : Jval → Option ClientMessage
  | .jnull => some ⟨"", none⟩
  | .jobj fields => do
      let t ← decodeStringField fields "type"
      pure ⟨t, jsonField fields "payload"⟩
  | _ => none

/-- Go `session.processCommand`: dispatch on the command type, unmarshal the
payload, and apply the mutation when unmarshalling succeeds.  `genId` is the
`uuid.NewString()` result that the `add_area_template` branch would draw when
the payload carries an empty id. -/
def processCommand (genId : String) (msg : ClientMessage) (state : State) :
    State :=
  match msg.type with
  | "add_token" =>
      match decodeAddTokenPayload msg.payload with
      | some p => state.AddToken p.id p.token
      | none => state
  | "move_token" =>
      match decodeMoveTokenPayload msg.payload with
      | some p => state.MoveToken p.id p.x p.y
      | none => state
  | "delete_token" =>
      match decodeDeleteTokenPayload msg.payload with
      | some p => state.DeleteToken p.id
      | none => state
  | "clear_tokens" => state.ClearTokens
  | "change_background" =>
      match decodeChangeBackgroundPayload msg.payload with
      | some p => state.ChangeBackgroundImg p.imgPath
      | none => state
  | "toggle_grid" => state.ToggleGrid
  | "add_area_template" =>
      match decodeAddAreaTemplatePayload msg.payload with
      | some p =>
          let id := if p.id = "" then genId else p.id
          state.AddAreaTemplate id p.template
      | none => state
  | "move_area_template" =>
      match decodeMoveAreaTemplatePayload msg.payload with
      | some p => state.MoveAreaTemplate p.id p.x p.y
      | none => state
  | "delete_area_template" =>
      match decodeDeleteAreaTemplatePayload msg.payload with
      | some p => state.DeleteAreaTemplate p.id
      | none => state
  | "clear_area_templates" => state.ClearAreaTemplates
  | _ => state

/-- Does the envelope's payload unmarshal for its declared command type?
`false` exactly when the command is malformed: either the type is unknown or
the payload fails to unmarshal for it.  Zero-payload commands never fail. -/
def commandDecodes (msg : ClientMessage) : Bool :=
  match msg.type with
  | "add_token" => (decodeAddTokenPayload msg.payload).isSome
  | "move_token" => (decodeMoveTokenPayload msg.payload).isSome
  | "delete_token" => (decodeDeleteTokenPayload msg.payload).isSome
  | "clear_tokens" => true
  | "change_background" => (decodeChangeBackgroundPayload msg.payload).isSome
  | "toggle_grid" => true
  | "add_area_template" => (decodeAddAreaTemplatePayload msg.payload).isSome
  | "move_area_template" => (decodeMoveAreaTemplatePayload msg.payload).isSome
  | "delete_area_template" => (decodeDeleteAreaTemplatePayload msg.payload).isSome
  | "clear_area_templates" => true
  | _ => false

/-- One iteration of the `HandleWS` read loop on a successfully read text
message (`raw = none` models bytes that are not valid JSON, on which the
envelope unmarshal fails).  Returns the session state afterwards and whether
the connection is still open: the loop never closes on a delivered message
— it only breaks when the read itself fails. -/
def readLoopStep (genId : String) (raw : Option Jval) (state : State) :
    State × Bool :=
  match raw with
  | none => (state, true)
  | some v =>
      match parseClientMessage v with
      | none => (state, true)
      | some msg => (processCommand genId msg state, true)

/-- Fold of `processCommand` over a command sequence, each paired with the
generator draw for its `add_area_template` branch. -/
def applyCommands (s : State) (cmds : List (String × ClientMessage)) : State :=
  cmds.foldl (fun st gm => processCommand gm.1 gm.2 st) s

/-! ### Session registry (`session.Manager`) -/

/-- Connections are abstract handles (`*websocket.Conn` identities). -/
abbrev Conn := Nat

/-- Go struct `session.Session`; `clients` models the set
`map[*websocket.Conn]bool`. -/
structure Session where
  id : String
  clients : List Conn
  state : State
deriving DecidableEq, Repr

/-- Capacity parameters of `config.Config` used by the manager. -/
structure Config where
  maxSessions : Nat
  maxUsersPerSession : Nat
deriving DecidableEq, Repr

/-- Go struct `session.Manager` (lock and store elided: all manager
operations below are the lock-protected critical sections). -/
structure Manager where
  sessions : List (String × Session)
  cfg : Config
deriving DecidableEq, Repr

/-- Set insertion for the client set `session.Clients[c] = true`. -/
def insertClient (cs : List Conn) (c : Conn) : List Conn :=
  if c ∈ cs then cs else cs ++ [c]

/-- Payload of a `session.ServerMessage` (the `interface\x7b\x7d` field): either
the `map[string]string` error object or a full Scene State. -/
inductive ServerPayload where
  | errObj (fields : List (String × String)) : ServerPayload
  | stateObj (s : State) : ServerPayload
deriving DecidableEq, Repr

/-- Go struct `session.ServerMessage`. -/
structure ServerMessage where
  type : String
  payload : ServerPayload
deriving DecidableEq, Repr

/-- The one message written by the session-full branch of `HandleWS`. -/
def sessionFullMessage : ServerMessage :=
  ⟨"error", .errObj [("error", "session is full")]⟩

/-- The message written by `sendState` and `broadcastState`. -/
def stateUpdateMessage (s : State) : ServerMessage :=
  ⟨"state_update", .stateObj s⟩

/-- Outcome of the join phase of `HandleWS` for one connection: the manager
afterwards, the messages written to the joining connection, and whether the
connection was closed during the phase. -/
structure JoinOutcome where
  manager : Manager
  sent : List ServerMessage
  closed : Bool
deriving DecidableEq, Repr

/-- Join phase of `session.Manager.HandleWS` (lines 198–228): resolve the
session id, check capacity strictly before admission, and on success add the
connection and synchronously send the full current state. -/
def Manager.handleWSJoin (m : Manager) (sessionId : String) (c : Conn) :
    JoinOutcome :=
  match alistLookup m.sessions sessionId with
  | none => ⟨m, [], true⟩
  | some session =>
      if session.clients.length ≥ m.cfg.maxUsersPerSession then
        ⟨m, [sessionFullMessage], true⟩
      else
        let session' := { session with clients := insertClient session.clients c }
        ⟨{ m with sessions := alistInsert m.sessions sessionId session' },
          [stateUpdateMessage session.state], false⟩

/-- Result of `session.Manager.CreateSession`: HTTP 429 with the capacity
error, or HTTP 201 with the fresh session id. -/
inductive CreateResult where
  | capacityError : CreateResult
  | created (sessionId : String) : CreateResult
deriving DecidableEq, Repr

/-- Go `session.Manager.CreateSession` (lines 155–178); `newId` is the
`uuid.NewString()` draw. -/
def Manager.CreateSession (m : Manager) (newId : String) :
    Manager × CreateResult :=
  if m.sessions.length ≥ m.cfg.maxSessions then
    (m, .capacityError)
  else
    ({ m with sessions :=
        alistInsert m.sessions newId ⟨newId, [], NewState⟩ },
      .created newId)

/-! ### Snapshot serialization (`json.Marshal(state)` in `saveAllSnapshots`)
and deserialization (`json.Unmarshal` plus map defaulting in
`RestoreSessions`) -/

/-- Marshal a `game.TokenData` (field order as in the struct). -/
def marshalTokenData (t : TokenData) : Jval :=
  .jobj [("name", .jstr t.name), ("imgPath", .jstr t.imgPath),
         ("x", .jnum t.x), ("y", .jnum t.y), ("tokenSize", .jnum t.tokenSize)]

/-- Marshal a `game.AreaTemplate`. -/
def marshalAreaTemplate (t : AreaTemplate) : Jval :=
  .jobj [("shape", .jstr t.shape), ("x", .jnum t.x), ("y", .jnum t.y),
         ("size", .jnum t.size), ("color", .jstr t.color),
         ("opacity", .jnum t.opacity)]

/-- Marshal a `map[string]T` value: one object member per entry (a non-nil
empty Go map marshals to the empty object). -/
def marshalAlist {α : Type} (f : α → Jval) (m : List (String × α)) : Jval :=
  .jobj (m.map fun kv => (kv.1, f kv.2))

/-- Marshal a `game.State`, as `json.Marshal(snap.state)` does in
`saveAllSnapshots`. -/
def marshalState (s : State) : Jval :=
  .jobj [("displayedTokens", marshalAlist marshalTokenData s.displayedTokens),
         ("backgroundImgPath", .jstr s.backgroundImgPath),
         ("showGrid", .jbool s.showGrid),
         ("gridUnit", .jnum s.gridUnit),
         ("areaTemplates", marshalAlist marshalAreaTemplate s.areaTemplates)]

/-- Unmarshal the members of a JSON object into a Go map by successive
assignment (`m[k] = decode(v)`); any member value failing to unmarshal
fails the whole map. -/
def decodeAlistAux {α : Type} (dec : Jval → Option α)
    (acc : List (String × α)) : List (String × Jval) →
    Option (List (String × α))
  | [] => some acc
  | (k, v) :: rest =>
      match dec v with
      | none => none
      | some a => decodeAlistAux dec (alistInsert acc k a) rest

/-- Unmarshal a `map[string]T` struct field.  The outer `Option` is the
unmarshal error; the inner `Option` distinguishes a nil map (field absent or
JSON `null`) from a decoded map. -/
def decodeAlistField {α : Type} (dec : Jval → Option α)
    (fields : List (String × Jval)) (key : String) :
    Option (Option (List (String × α))) :=
  match jsonField fields key with
  | none => some none
  | some .jnull => some none
  | some (.jobj entries) => (decodeAlistAux dec [] entries).map some
  | some _ => none

/-- Result of `json.Unmarshal(stateJSON, &state)` in `RestoreSessions`,
before the nil-map defaulting: the two map fields may still be nil. -/
structure DecodedState where
  displayedTokens : Option (List (String × TokenData))
  backgroundImgPath : String
  showGrid : Bool
  gridUnit : Rat
  areaTemplates : Option (List (String × AreaTemplate))
deriving DecidableEq, Repr

/-- Unmarshal a JSON value into a `game.State` (`null` keeps the zero
struct with nil maps; anything but an object errors). -/
def unmarshalState : Jval → Option DecodedState
  | .jnull => some ⟨none, "", false, 0, none⟩
  | .jobj fields => do
      let displayedTokens ← decodeAlistField decodeTokenData fields "displayedTokens"
      let backgroundImgPath ← decodeStringField fields "backgroundImgPath"
      let showGrid ← decodeBoolField fields "showGrid"
      let gridUnit ← decodeNumField fields "gridUnit"
      let areaTemplates ← decodeAlistField decodeAreaTemplate fields "areaTemplates"
      pure ⟨displayedTokens, backgroundImgPath, showGrid, gridUnit, areaTemplates⟩
  | _ => none

/-- Deserialize one stored blob the way `RestoreSessions` does (lines
77–87): unmarshal, then default any nil map field to an initialized empty
map. -/
def restoreStateFromBlob (v : Jval) : Option State :=
  (unmarshalState v).map fun d =>
    ⟨d.displayedTokens.getD [], d.backgroundImgPath, d.showGrid, d.gridUnit,
      d.areaTemplates.getD []⟩

/-- Go `session.Manager.RestoreSessions` (lines 61–95) applied to the loaded
snapshots: every blob that deserializes is inserted as a session with an
empty connection set and the restored state; a failing blob is skipped;
no capacity check is performed. -/
def Manager.RestoreSessions (m : Manager) (snapshots : List (String × Jval)) :
    Manager :=
  snapshots.foldl
    (fun acc kv =>
      match restoreStateFromBlob kv.2 with
      | none => acc
      | some st =>
          { acc with sessions :=
              alistInsert acc.sessions kv.1 ⟨kv.1, [], st⟩ })
    m

/-! ### Deferred session reclamation (`HandleWS` lines 230–248)

Disconnection and the `time.AfterFunc` callback are modelled as a small
transition system: `now` is the clock, and `timers` holds the scheduled
reclamation checks as `(fireTime, sessionId)` pairs. -/

/-- Registry plus the pending reclamation timers and the clock. -/
structure Sys where
  manager : Manager
  timers : List (Nat × String)
  now : Nat
deriving DecidableEq, Repr

/-- Grace delay of `time.AfterFunc(2*time.Second, ...)`, in time units. -/
def graceDelay : Nat := 2

/-- Events affecting session lifetime: a connection joins, a connection's
read loop ends (the `defer` block runs), time advances, or a scheduled
reclamation timer fires. -/
inductive Event where
  | join (sessionId : String) (c : Conn) : Event
  | leave (sessionId : String) (c : Conn) : Event
  | advance (d : Nat) : Event
  | fire (t : Nat) (sessionId : String) : Event
deriving DecidableEq, Repr

/-- The `defer` block of `HandleWS`: remove the connection from the client
set, and when the set became empty schedule a reclamation check after the
grace delay. -/
def handleLeave (sys : Sys) (sessionId : String) (c : Conn) : Sys :=
  match alistLookup sys.manager.sessions sessionId with
  | none => sys
  | some session =>
      let session' := { session with clients := session.clients.filter (· ≠ c) }
      let manager' := { sys.manager with
        sessions := alistInsert sys.manager.sessions sessionId session' }
      if session'.clients.length = 0 then
        { sys with manager := manager',
                   timers := sys.timers ++ [(sys.now + graceDelay, sessionId)] }
      else
        { sys with manager := manager' }

/-- The `time.AfterFunc` callback body: under the lock, re-check that the
session still exists and has zero connections, and only then remove it. -/
def fireReclaim (m : Manager) (sessionId : String) : Manager :=
  match alistLookup m.sessions sessionId with
  | none => m
  | some session =>
      if session.clients.length = 0 then
        { m with sessions := alistErase m.sessions sessionId }
      else
        m

/-- One transition of the lifecycle system.  A `fire` event is enabled only
for a scheduled timer whose time has been reached; it consumes the timer and
runs the callback. -/
def Sys.step (sys : Sys) : Event → Sys
  | .join sessionId c =>
      { sys with manager := (sys.manager.handleWSJoin sessionId c).manager }
  | .leave sessionId c => handleLeave sys sessionId c
  | .advance d => { sys with now := sys.now + d }
  | .fire t sessionId =>
      if (t, sessionId) ∈ sys.timers ∧ t ≤ sys.now then
        { sys with manager := fireReclaim sys.manager sessionId,
                   timers := sys.timers.erase (t, sessionId) }
      else
        sys

/-! ### Reference-semantics model of `saveAllSnapshots`

In Go, `game.State` contains `map` fields, which are references: assigning
a `State` (as `snapshot\x7bid: id, state: sess.State\x7d` does in
`saveAllSnapshots`, lines 130–153) copies the map *headers*, not the
entries.  To settle the consistency claim about the snapshot copy, the
state is re-modelled here with the two maps held in an explicit heap of
cells addressed by `Nat`: struct assignment copies the cell addresses, map
writes mutate the shared cell, and `make(map...)` allocates a fresh cell. -/

/-- A `game.State` value as Go represents it: scalar fields inline, map
fields as references into the heap. -/
structure StateRef where
  displayedTokensRef : Nat
  backgroundImgPath : String
  showGrid : Bool
  gridUnit : Rat
  areaTemplatesRef : Nat
deriving DecidableEq, Repr

/-- The heap of map cells shared by all `StateRef` copies. -/
structure Heap where
  tokenCells : List (Nat × List (String × TokenData))
  areaCells : List (Nat × List (String × AreaTemplate))
  next : Nat
deriving DecidableEq, Repr

/-- Read the token map a reference points to. -/
def readTokenCell (h : Heap) (r : Nat) : List (String × TokenData) :=
  (alistLookup h.tokenCells r).getD []

/-- Overwrite the token map a reference points to (an in-place map write). -/
def writeTokenCell (h : Heap) (r : Nat) (m : List (String × TokenData)) :
    Heap :=
  { h with tokenCells := alistInsert h.tokenCells r m }

/-- Read the area-template map a reference points to. -/
def readAreaCell (h : Heap) (r : Nat) : List (String × AreaTemplate) :=
  (alistLookup h.areaCells r).getD []

/-- Overwrite the area-template map a reference points to. -/
def writeAreaCell (h : Heap) (r : Nat) (m : List (String × AreaTemplate)) :
    Heap :=
  { h with areaCells := alistInsert h.areaCells r m }

/-- Dereference a `StateRef` against a heap, yielding the value-level Scene
State it denotes (this is what `json.Marshal` reads). -/
def derefState (h : Heap) (r : StateRef) : State :=
  ⟨readTokenCell h r.displayedTokensRef, r.backgroundImgPath, r.showGrid,
    r.gridUnit, readAreaCell h r.areaTemplatesRef⟩

/-- `session.processCommand` under Go reference semantics: the same dispatch
and mutations as `processCommand`, with map writes going through the shared
heap cells and the map-replacing commands (`clear_tokens`,
`clear_area_templates`, via `make(map...)`) allocating fresh cells. -/
def processCommandRef (genId : String) (msg : ClientMessage) (h : Heap)
    (r : StateRef) : Heap × StateRef :=
  match msg.type with
  | "add_token" =>
      match decodeAddTokenPayload msg.payload with
      | some p =>
          (writeTokenCell h r.displayedTokensRef
            (alistInsert (readTokenCell h r.displayedTokensRef) p.id p.token), r)
      | none => (h, r)
  | "move_token" =>
      match decodeMoveTokenPayload msg.payload with
      | some p =>
          match alistLookup (readTokenCell h r.displayedTokensRef) p.id with
          | some token =>
              (writeTokenCell h r.displayedTokensRef
                (alistInsert (readTokenCell h r.displayedTokensRef) p.id
                  { token with x := p.x, y := p.y }), r)
          | none => (h, r)
      | none => (h, r)
  | "delete_token" =>
      match decodeDeleteTokenPayload msg.payload with
      | some p =>
          (writeTokenCell h r.displayedTokensRef
            (alistErase (readTokenCell h r.displayedTokensRef) p.id), r)
      | none => (h, r)
  | "clear_tokens" =>
      ({ writeTokenCell h h.next [] with next := h.next + 1 },
        { r with displayedTokensRef := h.next })
  | "change_background" =>
      match decodeChangeBackgroundPayload msg.payload with
      | some p => (h, { r with backgroundImgPath := p.imgPath })
      | none => (h, r)
  | "toggle_grid" => (h, { r with showGrid := !r.showGrid })
  | "add_area_template" =>
      match decodeAddAreaTemplatePayload msg.payload with
      | some p =>
          let id := if p.id = "" then genId else p.id
          (writeAreaCell h r.areaTemplatesRef
            (alistInsert (readAreaCell h r.areaTemplatesRef) id p.template), r)
      | none => (h, r)
  | "move_area_template" =>
      match decodeMoveAreaTemplatePayload msg.payload with
      | some p =>
          match alistLookup (readAreaCell h r.areaTemplatesRef) p.id with
          | some t =>
              (writeAreaCell h r.areaTemplatesRef
                (alistInsert (readAreaCell h r.areaTemplatesRef) p.id
                  { t with x := p.x, y := p.y }), r)
          | none => (h, r)
      | none => (h, r)
  | "delete_area_template" =>
      match decodeDeleteAreaTemplatePayload msg.payload with
      | some p =>
          (writeAreaCell h r.areaTemplatesRef
            (alistErase (readAreaCell h r.areaTemplatesRef) p.id), r)
      | none => (h, r)
  | "clear_area_templates" =>
      ({ writeAreaCell h h.next [] with next := h.next + 1 },
        { r with areaTemplatesRef := h.next })
  | _ => (h, r)

/-- A `session.Session` under reference semantics. -/
structure SessionR where
  id : String
  clients : List Conn
  stateRef : StateRef
deriving DecidableEq, Repr

/-- A `session.Manager` under reference semantics, with the shared heap. -/
structure ManagerR where
  sessions : List (String × SessionR)
  heap : Heap
deriving DecidableEq, Repr

/-- The locked mutate step of the `HandleWS` read loop, applied to a named
session under reference semantics. -/
def applyCommandR (m : ManagerR) (sessionId genId : String)
    (msg : ClientMessage) : ManagerR :=
  match alistLookup m.sessions sessionId with
  | none => m
  | some sess =>
      let hr := processCommandRef genId msg m.heap sess.stateRef
      { sessions := alistInsert m.sessions sessionId
          { sess with stateRef := hr.2 },
        heap := hr.1 }

/-- Go `session.Manager.saveAllSnapshots` with an explicit interleaving:
phase 1 (under the lock) copies every `(id, sess.State)` pair — a Go struct
assignment, so the map references are shared; then the lock is released and
the commands in `mid` are applied by connection tasks; phase 2 (outside the
lock) runs `json.Marshal(snap.state)` on each copy, reading the heap as it
stands after those commands. -/
def saveAllSnapshots (m : ManagerR)
    (mid : List (String × String × ClientMessage)) : List (String × Jval) :=
  let snaps := m.sessions.map fun kv => (kv.1, kv.2.stateRef)
  let m' := mid.foldl (fun acc e => applyCommandR acc e.1 e.2.1 e.2.2) m
  snaps.map fun kv => (kv.1, marshalState (derefState m'.heap kv.2))

/-! ### Concrete sample data used to instantiate the theorems -/

/-- Heap with one empty token map (cell 0) and one empty area-template map
(cell 1). -/
def exampleHeap : Heap := ⟨[(0, [])], [(1, [])], 2⟩

/-- A freshly created state under reference semantics, pointing at cells 0
and 1. -/
def exampleStateRef : StateRef :=
  ⟨0, "/assets/default/maps/tavern.jpg", true, 96, 1⟩

/-- Registry with one session `s1` (one connection) whose state is the
default, for exercising `saveAllSnapshots`. -/
def exampleManagerR : ManagerR :=
  ⟨[("s1", ⟨"s1", [7], exampleStateRef⟩)], exampleHeap⟩

/-- Sample token. -/
def exampleToken : TokenData := ⟨"Goblin", "/goblin.jpg", 96, 96, 96⟩

/-- Sample area template. -/
def exampleTemplate : AreaTemplate := ⟨"circle", 192, 288, 3, "#ff0000", 1⟩

/-- A well-formed `add_token` command for token `t1`. -/
def exampleAddTokenMsg : ClientMessage :=
  ⟨"add_token", some (.jobj [("id", .jstr "t1"),
    ("token", .jobj [("name", .jstr "Goblin"), ("imgPath", .jstr "/goblin.jpg"),
      ("x", .jnum 96), ("y", .jnum 96), ("tokenSize", .jnum 96)])])⟩

/-- An `add_area_template` command whose payload carries an empty id. -/
def exampleAddAreaMsg : ClientMessage :=
  ⟨"add_area_template", some (.jobj [("id", .jstr ""),
    ("template", .jobj [("shape", .jstr "circle"), ("x", .jnum 192),
      ("y", .jnum 288), ("size", .jnum 3), ("color", .jstr "#ff0000"),
      ("opacity", .jnum 1)])])⟩

/-- Capacity configuration: at most 5 sessions, 2 users per session. -/
def sampleConfig : Config := ⟨5, 2⟩

/-- A session at its user capacity (2 connections). -/
def sampleFullSession : Session := ⟨"s1", [1, 2], NewState⟩

/-- Registry holding only the full session `s1`. -/
def sampleManager : Manager := ⟨[("s1", sampleFullSession)], sampleConfig⟩

/-- A command sequence: one `toggle_grid`. -/
def sampleCmds : List (String × ClientMessage) := [("u1", ⟨"toggle_grid", none⟩)]

/-- An empty session whose state is the result of `sampleCmds`. -/
def sampleLiveSession : Session := ⟨"s2", [], applyCommands NewState sampleCmds⟩

/-- Registry holding only the joinable session `s2`. -/
def sampleManager2 : Manager := ⟨[("s2", sampleLiveSession)], sampleConfig⟩

/-- A state holding one token and one area template. -/
def sampleState : State :=
  ⟨[("t1", exampleToken)], "/forest.jpg", false, 96, [("a1", exampleTemplate)]⟩

/-- Lifecycle system: session `s1` has no clients left and a reclamation
check is scheduled at time 2; the clock is at 5. -/
def sampleSys : Sys :=
  ⟨⟨[("s1", ⟨"s1", [], NewState⟩)], sampleConfig⟩, [(2, "s1")], 5⟩

/-- Registry bounded to a single session, with no sessions yet. -/
def tinyManager : Manager := ⟨[], ⟨1, 2⟩⟩

/-- Two stored snapshots, both the serialized default state. -/
def sampleSnapshots : List (String × Jval) :=
  [("a", marshalState NewState), ("b", marshalState NewState)]

/-! ### Lemmas about the association-list map model -/

theorem alistLookup_insert {κ α : Type} [DecidableEq κ]
    (m : List (κ × α)) (k k' : κ) (v : α) :
    alistLookup (alistInsert m k v) k' =
      if k = k' then some v else alistLookup m k' := by
  induction m with
  | nil => simp [alistInsert, alistLookup]
  | cons kv rest ih =>
      obtain ⟨k0, v0⟩ := kv
      by_cases h0 : k0 = k
      · subst h0
        simp only [alistInsert, if_pos rfl, alistLookup]
        by_cases h1 : k0 = k'
        · subst h1; simp
        · simp [h1, alistLookup]
      · simp only [alistInsert, if_neg h0, alistLookup]
        by_cases h1 : k0 = k'
        · subst h1
          have hne : ¬ k = k0 := fun e => h0 e.symm
          simp [hne]
        · simp [h1, ih]

theorem alistLookup_erase {κ α : Type} [DecidableEq κ]
    (m : List (κ × α)) (k k' : κ) :
    alistLookup (alistErase m k) k' =
      if k = k' then none else alistLookup m k' := by
  induction m with
  | nil => simp [alistErase, alistLookup]
  | cons kv rest ih =>
      obtain ⟨k0, v0⟩ := kv
      by_cases h0 : k0 = k
      · subst h0
        simp only [alistErase, if_pos rfl, alistLookup]
        by_cases h1 : k0 = k'
        · subst h1; simpa using ih
        · simpa [h1] using ih
      · simp only [alistErase, if_neg h0, alistLookup]
        by_cases h1 : k0 = k'
        · subst h1
          have hne : ¬ k = k0 := fun e => h0 e.symm
          simp [hne]
        · simp [h1, ih]

theorem alistErase_of_lookup_none {κ α : Type} [DecidableEq κ]
    (m : List (κ × α)) (k : κ) (h : alistLookup m k = none) :
    alistErase m k = m := by
  induction m with
  | nil => rfl
  | cons kv rest ih =>
      obtain ⟨k0, v0⟩ := kv
      simp only [alistLookup] at h
      by_cases h0 : k0 = k
      · simp [h0] at h
      · rw [if_neg h0] at h
        simp only [alistErase, if_neg h0]
        rw [ih h]

theorem alistLookup_eq_none_of_not_mem {κ α : Type} [DecidableEq κ]
    (m : List (κ × α)) (k : κ) (h : k ∉ alistKeys m) :
    alistLookup m k = none := by
  induction m with
  | nil => rfl
  | cons kv rest ih =>
      simp only [alistKeys, List.map_cons, List.mem_cons, not_or] at h
      simp only [alistLookup]
      rw [if_neg (fun e => h.1 e.symm)]
      exact ih (by simpa [alistKeys] using h.2)

theorem not_mem_of_alistLookup_eq_none {κ α : Type} [DecidableEq κ]
    (m : List (κ × α)) (k : κ) (h : alistLookup m k = none) :
    k ∉ alistKeys m := by
  induction m with
  | nil => simp [alistKeys]
  | cons kv rest ih =>
      obtain ⟨k0, v0⟩ := kv
      simp only [alistLookup] at h
      by_cases h0 : k0 = k
      · simp [h0] at h
      · rw [if_neg h0] at h
        simp only [alistKeys, List.map_cons, List.mem_cons, not_or]
        exact ⟨fun e => h0 e.symm, by simpa [alistKeys] using ih h⟩

theorem alistInsert_of_not_mem {κ α : Type} [DecidableEq κ]
    (m : List (κ × α)) (k : κ) (v : α) (h : k ∉ alistKeys m) :
    alistInsert m k v = m ++ [(k, v)] := by
  induction m with
  | nil => rfl
  | cons kv rest ih =>
      obtain ⟨k0, v0⟩ := kv
      simp only [alistKeys, List.map_cons, List.mem_cons, not_or] at h
      simp only [alistInsert, List.cons_append]
      rw [if_neg (fun e => h.1 e.symm)]
      rw [ih (by simpa [alistKeys] using h.2)]

theorem alistInsert_length_of_lookup_none {κ α : Type} [DecidableEq κ]
    (m : List (κ × α)) (k : κ) (v : α) (h : alistLookup m k = none) :
    (alistInsert m k v).length = m.length + 1 := by
  rw [alistInsert_of_not_mem m k v (not_mem_of_alistLookup_eq_none m k h)]
  simp

theorem alistInsert_mem {κ α : Type} [DecidableEq κ]
    (m : List (κ × α)) (k : κ) (v : α) (p : κ × α)
    (h : p ∈ alistInsert m k v) : p = (k, v) ∨ p ∈ m := by
  induction m with
  | nil =>
      simp only [alistInsert, List.mem_singleton] at h
      exact Or.inl h
  | cons kv rest ih =>
      obtain ⟨k0, v0⟩ := kv
      simp only [alistInsert] at h
      by_cases h0 : k0 = k
      · rw [if_pos h0] at h
        rcases List.mem_cons.mp h with h | h
        · exact Or.inl h
        · exact Or.inr (List.mem_cons_of_mem _ h)
      · rw [if_neg h0] at h
        rcases List.mem_cons.mp h with h | h
        · exact Or.inr (h ▸ List.mem_cons_self _ _)
        · rcases ih h with h' | h'
          · exact Or.inl h'
          · exact Or.inr (List.mem_cons_of_mem _ h')

theorem alistLookup_mem {κ α : Type} [DecidableEq κ]
    (m : List (κ × α)) (k : κ) (v : α) (h : alistLookup m k = some v) :
    (k, v) ∈ m := by
  induction m with
  | nil => simp [alistLookup] at h
  | cons kv rest ih =>
      obtain ⟨k0, v0⟩ := kv
      simp only [alistLookup] at h
      by_cases h0 : k0 = k
      · rw [if_pos h0] at h
        injection h with h
        rw [← h0, ← h]
        exact List.mem_cons_self _ _
      · rw [if_neg h0] at h
        exact List.mem_cons_of_mem _ (ih h)

/-! ### Round-trip lemmas for the snapshot serialization -/

theorem decodeTokenData_marshal (t : TokenData) :
    decodeTokenData (marshalTokenData t) = some t := rfl

theorem decodeAreaTemplate_marshal (t : AreaTemplate) :
    decodeAreaTemplate (marshalAreaTemplate t) = some t := rfl

theorem decodeAlistAux_map {α : Type} (dec : Jval → Option α)
    (mar : α → Jval) (hdec : ∀ a, dec (mar a) = some a) :
    ∀ (m acc : List (String × α)),
      decodeAlistAux dec acc (m.map fun kv => (kv.1, mar kv.2)) =
        some (m.foldl (fun a kv => alistInsert a kv.1 kv.2) acc) := by
  intro m
  induction m with
  | nil => intro acc; rfl
  | cons kv rest ih =>
      intro acc
      obtain ⟨k0, v0⟩ := kv
      simp only [List.map_cons, decodeAlistAux, hdec, List.foldl_cons]
      exact ih (alistInsert acc k0 v0)

theorem foldl_insert_fresh {α : Type} :
    ∀ (m acc : List (String × α)), (alistKeys m).Nodup →
      (∀ k ∈ alistKeys m, k ∉ alistKeys acc) →
      m.foldl (fun a kv => alistInsert a kv.1 kv.2) acc = acc ++ m := by
  intro m
  induction m with
  | nil => intro acc _ _; simp
  | cons kv rest ih =>
      intro acc hnodup hfresh
      obtain ⟨k0, v0⟩ := kv
      simp only [alistKeys, List.map_cons, List.nodup_cons] at hnodup
      simp only [List.foldl_cons]
      rw [alistInsert_of_not_mem acc k0 v0
        (hfresh k0 (by simp [alistKeys]))]
      rw [ih (acc ++ [(k0, v0)]) (by simpa [alistKeys] using hnodup.2) ?fresh]
      · simp
      case fresh =>
        intro k hk
        have hk' : k ∈ alistKeys ((k0, v0) :: rest) := by
          simp only [alistKeys, List.map_cons, List.mem_cons]
          exact Or.inr (by simpa [alistKeys] using hk)
        intro hmem
        simp only [alistKeys, List.map_append, List.mem_append] at hmem
        rcases hmem with hmem | hmem
        · exact hfresh k hk' (by simpa [alistKeys] using hmem)
        · simp only [List.map_cons, List.map_nil, List.mem_singleton] at hmem
          exact hnodup.1 (hmem ▸ (by simpa [alistKeys] using hk))

theorem decodeAlist_roundtrip {α : Type} (dec : Jval → Option α)
    (mar : α → Jval) (hdec : ∀ a, dec (mar a) = some a)
    (m : List (String × α)) (hnodup : (alistKeys m).Nodup) :
    decodeAlistAux dec [] (m.map fun kv => (kv.1, mar kv.2)) = some m := by
  rw [decodeAlistAux_map dec mar hdec m []]
  rw [foldl_insert_fresh m [] hnodup (by simp [alistKeys])]
  simp

/-! ### Unfolding lemmas for the manager operations -/

theorem handleWSJoin_none (m : Manager) (sid : String) (c : Conn)
    (h : alistLookup m.sessions sid = none) :
    m.handleWSJoin sid c = ⟨m, [], true⟩ := by
  unfold Manager.handleWSJoin
  rw [h]

theorem handleWSJoin_some (m : Manager) (sid : String) (c : Conn)
    (sess : Session) (h : alistLookup m.sessions sid = some sess) :
    m.handleWSJoin sid c =
      (if sess.clients.length ≥ m.cfg.maxUsersPerSession then
        ⟨m, [sessionFullMessage], true⟩
      else
        { manager :=
            { m with
              sessions :=
                alistInsert m.sessions sid
                  { sess with clients := insertClient sess.clients c } },
          sent := [stateUpdateMessage sess.state], closed := false }) := by
  unfold Manager.handleWSJoin
  rw [h]

theorem handleLeave_none (sys : Sys) (sid : String) (c : Conn)
    (h : alistLookup sys.manager.sessions sid = none) :
    handleLeave sys sid c = sys := by
  unfold handleLeave
  rw [h]

theorem handleLeave_some (sys : Sys) (sid : String) (c : Conn)
    (sess : Session) (h : alistLookup sys.manager.sessions sid = some sess) :
    handleLeave sys sid c =
      (if (sess.clients.filter (· ≠ c)).length = 0 then
        { sys with
          manager :=
            { sys.manager with
              sessions :=
                alistInsert sys.manager.sessions sid
                  { sess with clients := sess.clients.filter (· ≠ c) } },
          timers := sys.timers ++ [(sys.now + graceDelay, sid)] }
      else
        { sys with
          manager :=
            { sys.manager with
              sessions :=
                alistInsert sys.manager.sessions sid
                  { sess with clients := sess.clients.filter (· ≠ c) } } }) := by
  unfold handleLeave
  rw [h]

theorem step_fire (sys : Sys) (t : Nat) (sid : String) :
    sys.step (.fire t sid) =
      (if (t, sid) ∈ sys.timers ∧ t ≤ sys.now then
        { sys with manager := fireReclaim sys.manager sid,
                   timers := sys.timers.erase (t, sid) }
      else sys) := rfl

theorem fireReclaim_some (m : Manager) (sid : String) (sess : Session)
    (h : alistLookup m.sessions sid = some sess) :
    fireReclaim m sid =
      (if sess.clients.length = 0 then
        { m with sessions := alistErase m.sessions sid }
      else m) := by
  unfold fireReclaim
  rw [h]

theorem RestoreSessions_cons (m : Manager) (k : String) (blob : Jval)
    (rest : List (String × Jval)) (st : State)
    (h : restoreStateFromBlob blob = some st) :
    m.RestoreSessions ((k, blob) :: rest) =
      ({ m with sessions := alistInsert m.sessions k ⟨k, [], st⟩
        }).RestoreSessions rest := by
  unfold Manager.RestoreSessions
  rw [List.foldl_cons]
  simp only [h]

theorem RestoreSessions_spec (snaps : List (String × Jval)) : ∀ (m : Manager),
    (∀ kv ∈ snaps, (restoreStateFromBlob kv.2).isSome = true) →
    (alistKeys snaps).Nodup →
    (∀ k ∈ alistKeys snaps, alistLookup m.sessions k = none) →
    (m.RestoreSessions snaps).sessions.length =
      m.sessions.length + snaps.length ∧
    (m.RestoreSessions snaps).cfg = m.cfg := by
  induction snaps with
  | nil => intro m _ _ _; exact ⟨by simp [Manager.RestoreSessions], rfl⟩
  | cons kv rest ih =>
      intro m hdec hnodup hfresh
      obtain ⟨k0, blob⟩ := kv
      obtain ⟨st, hst⟩ := Option.isSome_iff_exists.mp
        (hdec (k0, blob) (List.mem_cons_self _ _))
      rw [RestoreSessions_cons m k0 blob rest st hst]
      simp only [alistKeys, List.map_cons, List.nodup_cons] at hnodup
      have hk0 : alistLookup m.sessions k0 = none :=
        hfresh k0 (by simp [alistKeys])
      have hfresh' : ∀ k ∈ alistKeys rest,
          alistLookup (alistInsert m.sessions k0 (⟨k0, [], st⟩ : Session)) k
            = none := by
        intro k hk
        rw [alistLookup_insert]
        have hne : k0 ≠ k := by
          intro e
          exact hnodup.1 (e ▸ (by simpa [alistKeys] using hk))
        rw [if_neg hne]
        exact hfresh k (by
          simp only [alistKeys, List.map_cons, List.mem_cons]
          exact Or.inr (by simpa [alistKeys] using hk))
      obtain ⟨hlen, hcfg⟩ := ih
        { m with sessions := alistInsert m.sessions k0 ⟨k0, [], st⟩ }
        (fun kv hkv => hdec kv (List.mem_cons_of_mem _ hkv))
        (by simpa [alistKeys] using hnodup.2)
        hfresh'
      refine ⟨?_, hcfg⟩
      rw [hlen]
      show (alistInsert m.sessions k0 ⟨k0, [], st⟩).length + rest.length = _
      rw [alistInsert_length_of_lookup_none m.sessions k0 _ hk0]
      simp only [List.length_cons]
      omega

/-! ### The claims -/

/-- C1: a join attempt against a session already holding
`maxUsersPerSession` connections is answered with exactly one
`\x7btype: "error", payload: \x7berror: "session is full"\x7d\x7d` message and closed
with the registry unchanged (the capacity check runs strictly before the
connection is added); a join attempt with room succeeds and adds the
connection; consequently no session ever exceeds `maxUsersPerSession`
connections. -/
theorem claim_C1_session_capacity (m : Manager) (sid : String) (c : Conn) (sess : Session)
    (hs : alistLookup m.sessions sid = some sess) :
    (sess.clients.length ≥ m.cfg.maxUsersPerSession →
       m.handleWSJoin sid c = ⟨m, [sessionFullMessage], true⟩) ∧
    (sess.clients.length < m.cfg.maxUsersPerSession →
       (m.handleWSJoin sid c).closed = false ∧
       alistLookup (m.handleWSJoin sid c).manager.sessions sid =
         some { sess with clients := insertClient sess.clients c }) ∧
    ((∀ p ∈ m.sessions, p.2.clients.length ≤ m.cfg.maxUsersPerSession) →
       ∀ p ∈ (m.handleWSJoin sid c).manager.sessions,
         p.2.clients.length ≤ m.cfg.maxUsersPerSession) := by
  have hJ : m.handleWSJoin sid c =
      (if sess.clients.length ≥ m.cfg.maxUsersPerSession then
        ⟨m, [sessionFullMessage], true⟩
      else
        { manager :=
            { m with
              sessions :=
                alistInsert m.sessions sid
                  { sess with clients := insertClient sess.clients c } },
          sent := [stateUpdateMessage sess.state], closed := false }) := by
    unfold Manager.handleWSJoin
    rw [hs]
  refine ⟨?_, ?_, ?_⟩
  · intro hfull; rw [hJ, if_pos hfull]
  · intro hlt
    rw [hJ, if_neg (not_le.mpr hlt)]
    refine ⟨rfl, ?_⟩
    simp [alistLookup_insert]
  · intro hbound p hp
    rw [hJ] at hp
    by_cases hfull : sess.clients.length ≥ m.cfg.maxUsersPerSession
    · rw [if_pos hfull] at hp; exact hbound p hp
    · rw [if_neg hfull] at hp
      rcases alistInsert_mem _ _ _ p hp with h | h
      · have hlt : sess.clients.length < m.cfg.maxUsersPerSession :=
          Nat.lt_of_not_le hfull
        subst h
        show (insertClient sess.clients c).length ≤ m.cfg.maxUsersPerSession
        unfold insertClient
        by_cases hc : c ∈ sess.clients
        · rw [if_pos hc]
          exact hbound (sid, sess) (alistLookup_mem _ _ _ hs)
        · rw [if_neg hc]
          simp only [List.length_append, List.length_singleton]
          omega
      · exact hbound p h

/-- C2: an admitted connection is sent, as its first (and only join-phase)
message, one `state_update` carrying the session's full current Scene
State — the state reached after the N commands applied so far, identical
to what every already-joined participant holds. -/
theorem claim_C2_late_join_full_state (m : Manager) (sid : String) (c : Conn) (sess : Session)
    (cmds : List (String × ClientMessage))
    (hs : alistLookup m.sessions sid = some sess)
    (hroom : sess.clients.length < m.cfg.maxUsersPerSession)
    (hstate : sess.state = applyCommands NewState cmds) :
    (m.handleWSJoin sid c).sent =
      [stateUpdateMessage (applyCommands NewState cmds)] ∧
    (m.handleWSJoin sid c).sent.head? =
      some (stateUpdateMessage sess.state) := by
  have hJ : m.handleWSJoin sid c =
      (if sess.clients.length ≥ m.cfg.maxUsersPerSession then
        ⟨m, [sessionFullMessage], true⟩
      else
        { manager :=
            { m with
              sessions :=
                alistInsert m.sessions sid
                  { sess with clients := insertClient sess.clients c } },
          sent := [stateUpdateMessage sess.state], closed := false }) := by
    unfold Manager.handleWSJoin
    rw [hs]
  rw [hJ, if_neg (not_le.mpr hroom), hstate]
  exact ⟨rfl, rfl⟩

/-- C3: `move_token`, `delete_token`, `move_area_template` and
`delete_area_template` with an id absent from the corresponding map leave
the Scene State unchanged: no error, no entry created, no field
modified. -/
theorem claim_C3_missing_id_noop (s : State) (id : String) (x y : Rat) :
    (alistLookup s.displayedTokens id = none →
       s.MoveToken id x y = s ∧ s.DeleteToken id = s) ∧
    (alistLookup s.areaTemplates id = none →
       s.MoveAreaTemplate id x y = s ∧ s.DeleteAreaTemplate id = s) := by
  constructor
  · intro h
    constructor
    · unfold State.MoveToken
      rw [h]
    · unfold State.DeleteToken
      rw [alistErase_of_lookup_none _ _ h]
  · intro h
    constructor
    · unfold State.MoveAreaTemplate
      rw [h]
    · unfold State.DeleteAreaTemplate
      rw [alistErase_of_lookup_none _ _ h]

/-- C4: a command whose payload does not unmarshal for its declared type,
or whose type is unknown, leaves the Scene State unchanged, and no
delivered message ever closes the connection (the read loop always
continues). -/
theorem claim_C4_malformed_command_noop (genId : String) (msg : ClientMessage) (s : State)
    (h : commandDecodes msg = false) :
    processCommand genId msg s = s ∧
    ∀ raw : Option Jval, (readLoopStep genId raw s).2 = true := by
  constructor
  · unfold commandDecodes at h
    unfold processCommand
    split at h <;> simp_all
  · intro raw
    cases raw with
    | none => rfl
    | some v =>
        cases hp : parseClientMessage v <;> simp [readLoopStep, hp]

/-- C5: `CreateSession` rejects with a capacity error and leaves the
registry unchanged when `maxSessions` sessions already exist; otherwise it
inserts a session under the fresh id with an empty connection set and the
default Scene State (empty tokens, tavern background, grid shown, grid
unit 96, empty area templates) and returns that id. -/
theorem claim_C5_createSession_capacity_defaults (m : Manager) (newId : String) :
    (m.sessions.length ≥ m.cfg.maxSessions →
       m.CreateSession newId = (m, .capacityError)) ∧
    (m.sessions.length < m.cfg.maxSessions →
       (m.CreateSession newId).2 = .created newId ∧
       (m.CreateSession newId).1.sessions =
         alistInsert m.sessions newId ⟨newId, [], NewState⟩ ∧
       (alistLookup m.sessions newId = none →
          (m.CreateSession newId).1.sessions.length = m.sessions.length + 1) ∧
       alistLookup (m.CreateSession newId).1.sessions newId =
         some ⟨newId, [], NewState⟩) ∧
    NewState = ⟨[], "/assets/default/maps/tavern.jpg", true, 96, []⟩ := by
  refine ⟨?_, ?_, rfl⟩
  · intro hfull
    unfold Manager.CreateSession
    rw [if_pos hfull]
  · intro hlt
    have hC : m.CreateSession newId =
        ({ m with sessions := alistInsert m.sessions newId ⟨newId, [], NewState⟩ },
          .created newId) := by
      unfold Manager.CreateSession
      rw [if_neg (not_le.mpr hlt)]
    rw [hC]
    refine ⟨rfl, rfl, ?_, ?_⟩
    · intro hfresh
      exact alistInsert_length_of_lookup_none m.sessions newId _ hfresh
    · simp [alistLookup_insert]

/-- C6: an `add_area_template` command whose payload decodes with an empty
id adds exactly one new entry keyed by the generated id (assumed non-empty
and fresh, as `uuid.NewString` provides); a non-empty payload id inserts
or overwrites at that id. -/
theorem claim_C6_add_area_template_ids (genId : String) (msg : ClientMessage) (s : State)
    (p : AddAreaTemplatePayload)
    (htype : msg.type = "add_area_template")
    (hdec : decodeAddAreaTemplatePayload msg.payload = some p) :
    (p.id = "" → genId ≠ "" → alistLookup s.areaTemplates genId = none →
       (processCommand genId msg s).areaTemplates =
         s.areaTemplates ++ [(genId, p.template)] ∧
       (processCommand genId msg s).areaTemplates.length =
         s.areaTemplates.length + 1 ∧
       alistLookup (processCommand genId msg s).areaTemplates genId =
         some p.template) ∧
    (p.id ≠ "" →
       (processCommand genId msg s).areaTemplates =
         alistInsert s.areaTemplates p.id p.template) := by
  obtain ⟨t, pl⟩ := msg
  simp only at htype
  subst htype
  have hP : processCommand genId ⟨"add_area_template", pl⟩ s =
      s.AddAreaTemplate (if p.id = "" then genId else p.id) p.template := by
    show (match decodeAddAreaTemplatePayload pl with
          | some q =>
              s.AddAreaTemplate (if q.id = "" then genId else q.id) q.template
          | none => s) =
        s.AddAreaTemplate (if p.id = "" then genId else p.id) p.template
    rw [hdec]
  constructor
  · intro hid hgen hfresh
    rw [hP, if_pos hid]
    unfold State.AddAreaTemplate
    have hins := alistInsert_of_not_mem s.areaTemplates genId p.template
      (not_mem_of_alistLookup_eq_none _ _ hfresh)
    refine ⟨hins, ?_, ?_⟩
    · exact alistInsert_length_of_lookup_none _ _ _ hfresh
    · simp [alistLookup_insert]
  · intro hid
    rw [hP, if_neg hid]
    rfl

/-- C7: serializing a Scene State as the snapshot save path does and
deserializing it as `RestoreSessions` does (including defaulting missing
map fields) returns a state equal to the original in all fields, with
empty maps restored as empty maps. -/
theorem claim_C7_snapshot_round_trip (s : State)
    (h1 : (alistKeys s.displayedTokens).Nodup)
    (h2 : (alistKeys s.areaTemplates).Nodup) :
    restoreStateFromBlob (marshalState s) = some s := by
  obtain ⟨dt, bg, sg, gu, ar⟩ := s
  simp only [alistKeys] at h1 h2
  have hT := decodeAlist_roundtrip decodeTokenData marshalTokenData
    decodeTokenData_marshal dt (by simpa [alistKeys] using h1)
  have hA := decodeAlist_roundtrip decodeAreaTemplate marshalAreaTemplate
    decodeAreaTemplate_marshal ar (by simpa [alistKeys] using h2)
  simp [restoreStateFromBlob, marshalState, unmarshalState, marshalAlist,
    decodeAlistField, jsonField, decodeStringField, decodeBoolField,
    decodeNumField, hT, hA]

/-- C9: evaluation at the failing input.  The `(id, state)` copy taken by
`saveAllSnapshots` under the lock is a Go struct copy, which shares the
map references; an `add_token` command applied after the lock is released
and before serialization is therefore visible to `json.Marshal`: the blob
written for `s1` is the marshalled post-command state, which differs from
the state at copy time.  This contradicts the claim that a command applied
after the copy is not reflected in that interval's snapshot. -/
theorem claim_C9_snapshot_copy_mutated :
    saveAllSnapshots exampleManagerR [("s1", "u1", exampleAddTokenMsg)] =
      [("s1", marshalState
        ((derefState exampleManagerR.heap exampleStateRef).AddToken "t1"
          exampleToken))] ∧
    (derefState exampleManagerR.heap exampleStateRef).AddToken "t1"
        exampleToken ≠
      derefState exampleManagerR.heap exampleStateRef := by
  exact ⟨rfl, by decide⟩

/-- C8: a session is removed from the registry only by a reclamation timer
that fires after the grace delay and re-checks, under the lock, that the
session still has zero connections: a leave only updates the client set
(scheduling a check at `now + 2` when the set empties), a join never
removes a session, a fire with a client present leaves the registry
untouched, a fire with zero clients removes the session, and advancing
time alone removes nothing. -/
theorem claim_C8_deferred_reclamation (sys : Sys) (sid : String) (c : Conn) (d : Nat) :
    (∀ id, (alistLookup (sys.step (.leave sid c)).manager.sessions id).isSome =
        (alistLookup sys.manager.sessions id).isSome) ∧
    (∀ sess, alistLookup sys.manager.sessions sid = some sess →
       (sess.clients.filter (· ≠ c)).length = 0 →
       (sys.now + graceDelay, sid) ∈ (sys.step (.leave sid c)).timers) ∧
    (∀ id, (alistLookup sys.manager.sessions id).isSome = true →
       (alistLookup (sys.step (.join sid c)).manager.sessions id).isSome = true) ∧
    (∀ t sess, alistLookup sys.manager.sessions sid = some sess →
       sess.clients.length ≠ 0 →
       (sys.step (.fire t sid)).manager = sys.manager) ∧
    (∀ t sess, (t, sid) ∈ sys.timers → t ≤ sys.now →
       alistLookup sys.manager.sessions sid = some sess →
       sess.clients.length = 0 →
       alistLookup (sys.step (.fire t sid)).manager.sessions sid = none) ∧
    (sys.step (.advance d)).manager = sys.manager := by
  refine ⟨?_, ?_, ?_, ?_, ?_, rfl⟩
  · intro id
    show (alistLookup (handleLeave sys sid c).manager.sessions id).isSome = _
    cases hl : alistLookup sys.manager.sessions sid with
    | none => rw [handleLeave_none sys sid c hl]
    | some sess =>
        rw [handleLeave_some sys sid c sess hl]
        by_cases hlen : (sess.clients.filter (· ≠ c)).length = 0
        · rw [if_pos hlen]
          simp only [alistLookup_insert]
          by_cases hid : sid = id
          · subst hid; simp [hl]
          · rw [if_neg hid]
        · rw [if_neg hlen]
          simp only [alistLookup_insert]
          by_cases hid : sid = id
          · subst hid; simp [hl]
          · rw [if_neg hid]
  · intro sess hl hlen
    show (sys.now + graceDelay, sid) ∈ (handleLeave sys sid c).timers
    rw [handleLeave_some sys sid c sess hl, if_pos hlen]
    simp
  · intro id hid
    show (alistLookup (sys.manager.handleWSJoin sid c).manager.sessions id).isSome = true
    cases hl : alistLookup sys.manager.sessions sid with
    | none => rw [handleWSJoin_none sys.manager sid c hl]; exact hid
    | some sess =>
        rw [handleWSJoin_some sys.manager sid c sess hl]
        by_cases hfull : sess.clients.length ≥ sys.manager.cfg.maxUsersPerSession
        · rw [if_pos hfull]; exact hid
        · rw [if_neg hfull]
          simp only [alistLookup_insert]
          by_cases heq : sid = id
          · simp [heq]
          · rw [if_neg heq]; exact hid
  · intro t sess hl hne
    rw [step_fire]
    by_cases hen : (t, sid) ∈ sys.timers ∧ t ≤ sys.now
    · rw [if_pos hen]
      show fireReclaim sys.manager sid = sys.manager
      rw [fireReclaim_some sys.manager sid sess hl, if_neg hne]
    · rw [if_neg hen]
  · intro t sess htm hle hl hz
    rw [step_fire, if_pos ⟨htm, hle⟩]
    show alistLookup (fireReclaim sys.manager sid).sessions sid = none
    rw [fireReclaim_some sys.manager sid sess hl, if_pos hz]
    simp [alistLookup_erase]

/-- C10: `RestoreSessions` inserts every successfully deserialized
snapshot without consulting `maxSessions`, so a restore can leave the
registry holding strictly more than `maxSessions` sessions; the bound is
enforced only by `CreateSession`, which then rejects every creation
request. -/
theorem claim_C10_restore_ignores_capacity (m : Manager) (snaps : List (String × Jval)) (newId : String)
    (hdec : ∀ kv ∈ snaps, (restoreStateFromBlob kv.2).isSome = true)
    (hnodup : (alistKeys snaps).Nodup)
    (hfresh : ∀ k ∈ alistKeys snaps, alistLookup m.sessions k = none) :
    (m.RestoreSessions snaps).sessions.length =
      m.sessions.length + snaps.length ∧
    (snaps.length + m.sessions.length > m.cfg.maxSessions →
       (m.RestoreSessions snaps).CreateSession newId =
         (m.RestoreSessions snaps, .capacityError)) := by
  obtain ⟨hlen, hcfg⟩ := RestoreSessions_spec snaps m hdec hnodup hfresh
  refine ⟨hlen, fun hover => ?_⟩
  unfold Manager.CreateSession
  rw [if_pos]
  rw [hlen, hcfg]
  omega

/-! ### Witnesses: the claim theorems applied at concrete inputs -/

/-- C1 witness: the session at capacity rejects a further join with the
single error message and is left unchanged. -/
theorem claim_C1_witness :
    sampleManager.handleWSJoin "s1" 9 =
      ⟨sampleManager, [sessionFullMessage], true⟩ :=
  (claim_C1_session_capacity sampleManager "s1" 9 sampleFullSession
    (by decide)).1 (by decide)

/-- C2 witness: a join after one `toggle_grid` command receives the full
resulting state as its first message. -/
theorem claim_C2_witness :
    (sampleManager2.handleWSJoin "s2" 9).sent =
      [stateUpdateMessage (applyCommands NewState sampleCmds)] :=
  (claim_C2_late_join_full_state sampleManager2 "s2" 9 sampleLiveSession
    sampleCmds (by decide) (by decide) rfl).1

/-- C3 witness: moving and deleting the absent id `zz` is a no-op. -/
theorem claim_C3_witness :
    sampleState.MoveToken "zz" 7 8 = sampleState ∧
    sampleState.DeleteToken "zz" = sampleState :=
  (claim_C3_missing_id_noop sampleState "zz" 7 8).1 (by decide)

/-- C4 witness: a `move_token` command with a non-object payload is
dropped. -/
theorem claim_C4_witness :
    processCommand "u1" ⟨"move_token", some (.jstr "bad")⟩ sampleState =
      sampleState :=
  (claim_C4_malformed_command_noop "u1" ⟨"move_token", some (.jstr "bad")⟩
    sampleState (by decide)).1

/-- C5 witness: with room left, creation returns the fresh id and inserts
the default-state session. -/
theorem claim_C5_witness :
    (sampleManager.CreateSession "fresh-id").2 =
      CreateResult.created "fresh-id" ∧
    (sampleManager.CreateSession "fresh-id").1.sessions =
      alistInsert sampleManager.sessions "fresh-id"
        ⟨"fresh-id", [], NewState⟩ :=
  ⟨((claim_C5_createSession_capacity_defaults sampleManager "fresh-id").2.1
      (by decide)).1,
   ((claim_C5_createSession_capacity_defaults sampleManager "fresh-id").2.1
      (by decide)).2.1⟩

/-- C6 witness: an empty-id `add_area_template` creates exactly one entry
under the generated id `gen-1`. -/
theorem claim_C6_witness :
    (processCommand "gen-1" exampleAddAreaMsg NewState).areaTemplates =
      NewState.areaTemplates ++ [("gen-1", exampleTemplate)] ∧
    (processCommand "gen-1" exampleAddAreaMsg NewState).areaTemplates.length =
      NewState.areaTemplates.length + 1 ∧
    alistLookup
      (processCommand "gen-1" exampleAddAreaMsg NewState).areaTemplates
      "gen-1" = some exampleTemplate :=
  (claim_C6_add_area_template_ids "gen-1" exampleAddAreaMsg NewState
    ⟨"", exampleTemplate⟩ rfl (by decide)).1 rfl (by decide) (by decide)

/-- C7 witness: a state with one token and one area template survives the
snapshot round trip. -/
theorem claim_C7_witness :
    restoreStateFromBlob (marshalState sampleState) = some sampleState :=
  claim_C7_snapshot_round_trip sampleState (by decide) (by decide)

/-- C8 witness: the due reclamation timer removes the session that stayed
empty through the grace window. -/
theorem claim_C8_witness :
    alistLookup (sampleSys.step (.fire 2 "s1")).manager.sessions "s1" =
      none :=
  (claim_C8_deferred_reclamation sampleSys "s1" 9 0).2.2.2.2.1 2
    ⟨"s1", [], NewState⟩ (by decide) (by decide) (by decide) (by decide)

/-- C10 witness: restoring two snapshots into a registry capped at one
session yields two sessions, after which creation is rejected. -/
theorem claim_C10_witness :
    (tinyManager.RestoreSessions sampleSnapshots).sessions.length =
      tinyManager.sessions.length + sampleSnapshots.length ∧
    (tinyManager.RestoreSessions sampleSnapshots).CreateSession "c-id" =
      (tinyManager.RestoreSessions sampleSnapshots,
        CreateResult.capacityError) := by
  have h := claim_C10_restore_ignores_capacity tinyManager sampleSnapshots
    "c-id" (by decide) (by decide) (by decide)
  exact ⟨h.1, h.2 (by decide)⟩

end QTE
